import Mathlib

/-!
Verification development for the Doc_assistant retrieval-and-orchestration
engine (backend/app). Python float scores are modelled as exact rationals
(`ℚ`), Python lists as `List`, Python dicts as insertion-ordered association
lists, and the two fallible external providers (embedding/generation) as
explicit inputs to the functions that consume their output.
-/

namespace DocAssistant

/-! ## Conversation manager (`app/services/conversation_manager.py`) -/

/-- Role of a chat message (`ChatRole` in `app/models/rag.py`). -/
inductive ChatRole where
  | user
  | assistant
  | system
deriving Repr, DecidableEq

/-- A chat message. Timestamp and metadata fields of the Python model play no
role in any claim and are omitted. -/
structure ChatMessage where
  role : ChatRole
  content : String
deriving Repr, DecidableEq

/-- Per-conversation hard cap on stored messages: `max_messages = 100` in
`ConversationManager.add_message`. -/
def maxMessages : Nat := 100

/-- The messages-list update performed by `ConversationManager.add_message`
(lines 42-70): append the new message, then keep only the last
`max_messages` entries (`conversation.messages = conversation.messages[-max_messages:]`). -/
def add_message (msgs : List ChatMessage) (m : ChatMessage) : List ChatMessage :=
  let ms := msgs ++ [m]
  if maxMessages < ms.length then ms.drop (ms.length - maxMessages) else ms

/-- Adding a sequence of messages one by one to a fresh conversation. -/
def addAllMessages (ms : List ChatMessage) : List ChatMessage :=
  ms.foldl add_message []

/-- Performance metrics (`RAGMetrics` in `app/models/rag.py`; only the fields
read and written by `update_metrics` are modelled; all default to zero). -/
structure RAGMetrics where
  total_requests : Nat := 0
  successful_requests : Nat := 0
  failed_requests : Nat := 0
  total_response_time : ℚ := 0
  average_response_time : ℚ := 0
deriving Repr, DecidableEq

/-- `ConversationManager.update_metrics` (lines 192-206): bump the request
counters, accumulate the response time, and recompute the average when the
total is positive. -/
def update_metrics (m : RAGMetrics) (response_time : ℚ) (success : Bool) : RAGMetrics :=
  let m := { m with
    total_requests := m.total_requests + 1
    total_response_time := m.total_response_time + response_time }
  let m :=
    if success then { m with successful_requests := m.successful_requests + 1 }
    else { m with failed_requests := m.failed_requests + 1 }
  if 0 < m.total_requests then
    { m with average_response_time := m.total_response_time / (m.total_requests : ℚ) }
  else m

/-- Metrics after a sequence of `update_metrics` calls starting from fresh
metrics. -/
def runMetrics (calls : List (ℚ × Bool)) : RAGMetrics :=
  calls.foldl (fun m c => update_metrics m c.1 c.2) {}

/-! ## Streaming chat (`app/services/rag_service.py`) -/

/-- One streamed increment, as constructed by `RAGService.stream_chat`
(the keyword arguments passed to `StreamingChatResponse`; the
`conversation_id`, `retrieval_context` and `sources_used` fields play no role
in any claim and are omitted). -/
structure StreamIncrement where
  chunk : String
  is_complete : Bool
  error_message : Option String := none
deriving Repr, DecidableEq

/-- `RAGService._stream_generate_response` (lines 248-262). The generation
provider's behaviour is an explicit input: the chunks it yields before either
finishing normally (`err = none`) or raising mid-stream (`err = some e`).
The `except` branch swallows the provider error and yields the error text as
one further ordinary chunk. -/
def stream_generate_response (chunks : List String) (err : Option String) : List String :=
  chunks ++
    (match err with
     | some e => ["生成回答时出现错误: " ++ e]
     | none => [])

/-- `RAGService.stream_chat` (lines 114-166),从 step 4 on: forward every
generated chunk as a non-final increment, accumulate the full response,
emit one completion increment, then persist the user message and the
accumulated assistant message to the conversation history. Retrieval and
prompt building (steps 1-3) do not touch the stream or the history and are
not modelled. Returns the increments the caller receives and the updated
message list of the conversation. -/
def stream_chat (userMessage : String) (history : List ChatMessage)
    (chunks : List String) (err : Option String) :
    List StreamIncrement × List ChatMessage :=
  let produced := stream_generate_response chunks err
  let fullResponse := produced.foldl (· ++ ·) ""
  let increments :=
    produced.map (fun c => { chunk := c, is_complete := false }) ++
      [{ chunk := "", is_complete := true }]
  let history := add_message history ⟨.user, userMessage⟩
  let history := add_message history ⟨.assistant, fullResponse⟩
  (increments, history)

/-! ## Query analyzer (`app/services/query_analyzer.py`) -/

/-- Boolean test that `needle` starts `hay` (character lists). -/
def leadMatch : List Char → List Char → Bool
  | [], _ => true
  | _ :: _, [] => false
  | a :: as, b :: bs => a == b && leadMatch as bs

/-- Boolean substring test on character lists; the empty needle is found
everywhere, matching Python's `in` on strings. -/
def hasSub (needle : List Char) : List Char → Bool
  | [] => needle.isEmpty
  | b :: bs => leadMatch needle (b :: bs) || hasSub needle bs

/-- Python's `needle in hay` on strings. -/
def strContains (hay needle : String) : Bool :=
  hasSub needle.toList hay.toList

/-- The intent patterns of `QueryAnalyzer.intent_patterns` (lines 24-31), in
dict insertion order. Every pattern is a regex that matches a literal string
(the escape `\?` matches the literal `?`), so `re.search(pattern, query)` is
substring containment; `re.IGNORECASE` is moot for these patterns. -/
def intent_patterns : List (String × List String) :=
  [("question", ["什么是", "如何", "怎么", "为什么", "哪里", "谁", "何时", "?", "？"]),
   ("search", ["查找", "搜索", "找到", "寻找", "检索"]),
   ("summary", ["总结", "概括", "摘要", "归纳", "梳理"]),
   ("comparison", ["比较", "对比", "区别", "差异", "相同", "不同"]),
   ("analysis", ["分析", "评估", "解释", "说明", "阐述"]),
   ("recommendation", ["建议", "推荐", "意见", "方案", "策略"])]

/-- The intent-recognition loop of `QueryAnalyzer._basic_analysis`
(lines 113-120), with the running `analysis.intent` as explicit state:
the inner `for` sets the intent to the category when some pattern matches
(and breaks), and the outer loop breaks as soon as
`analysis.intent == intent` for the category just inspected. -/
def findIntent : List (String × List String) → String → String → String
  | [], _, intent => intent
  | (cat, pats) :: rest, q, intent =>
    let intent' := if pats.any (fun p => strContains q p) then cat else intent
    if intent' == cat then intent' else findIntent rest q intent'

/-- Intent assigned by `_basic_analysis`; the analysis starts from the
default intent `"question"`. -/
def assignIntent (q : String) : String :=
  findIntent intent_patterns q "question"

/-- The `complex_words` list of `QueryAnalyzer._assess_complexity`. -/
def complexWords : List String :=
  ["分析", "比较", "评估", "解释", "总结", "归纳", "对比", "区别"]

/-- The `logical_words` list of `QueryAnalyzer._assess_complexity`. -/
def logicalWords : List String :=
  ["并且", "或者", "但是", "然而", "因此", "所以", "如果", "那么"]

/-- `QueryAnalyzer._assess_complexity` (lines 240-264): length factor capped
at 0.3, question marks at 0.1 each capped at 0.2, 0.1 per complex word
present, 0.15 per logical connective present, total capped at 1.
Python `len` counts code points, i.e. `toList.length`. -/
def assessComplexity (q : String) : ℚ :=
  let lengthFactor : ℚ := min ((q.toList.length : ℚ) / 100) (3 / 10)
  let questionMarks := (q.toList.filter (fun c => c == '?' || c == '？')).length
  let c1 : ℚ := lengthFactor + min ((questionMarks : ℚ) * (1 / 10)) (2 / 10)
  let c2 : ℚ := c1 + ((complexWords.filter (fun w => strContains q w)).length : ℚ) * (1 / 10)
  let c3 : ℚ := c2 + ((logicalWords.filter (fun w => strContains q w)).length : ℚ) * (15 / 100)
  min c3 1

/-- The stop-word set shared by `_extract_keywords_simple` (and the retrieval
service's `_extract_keywords`). -/
def stopWords : List String :=
  ["的", "了", "在", "是", "我", "有", "和", "就", "不", "人", "都", "一", "一个",
   "上", "也", "很", "到", "说", "要", "去", "你", "会", "着", "没有", "看", "好",
   "自己", "这"]

/-- Characters matched by Python's unicode `\w` for the alphabets this
code base uses: ASCII alphanumerics, underscore, and CJK unified ideographs. -/
def isWordChar (c : Char) : Bool :=
  c.isAlphanum || c == '_' || (0x4E00 ≤ c.toNat && c.toNat ≤ 0x9FFF)

/-- Splitting into maximal runs of word characters: `re.findall(r'[\w]+', query)`.
The accumulator holds the current run reversed. -/
def wordRuns : List Char → List Char → List String
  | [], acc => if acc.isEmpty then [] else [String.mk acc.reverse]
  | c :: cs, acc =>
    if isWordChar c then wordRuns cs (c :: acc)
    else if acc.isEmpty then wordRuns cs acc
    else String.mk acc.reverse :: wordRuns cs []

/-- `QueryAnalyzer._extract_keywords_simple` (lines 229-238): tokenize, keep
words longer than one character that are not stop words, cap at 10. -/
def extract_keywords_simple (q : String) : List String :=
  ((wordRuns q.toList []).filter
    (fun w => 1 < w.toList.length && !(stopWords.contains w))).take 10

/-- `QueryAnalysis` (`app/models/rag.py`). `suggested_retrieval_count` is a
Python int, modelled as `Int`. -/
structure QueryAnalysis where
  original_query : String
  intent : String
  keywords : List String
  entities : List String
  query_type : String
  complexity_score : ℚ
  requires_context : Bool
  suggested_retrieval_count : Int
deriving Repr, DecidableEq

/-- `QueryAnalyzer._basic_analysis` (lines 100-148). The regex-based entity
extractor (lines 122-128) is abstracted as the parameter `extractEntities`
composed with the `list(set(...))` dedup; no claim depends on its output.
`query_type` stays at its default `"factual"` and `requires_context` at
`True`, which `_basic_analysis` never reassigns. -/
def basic_analysis (extractEntities : String → List String) (q : String) : QueryAnalysis :=
  let complexity := assessComplexity q
  { original_query := q
    intent := assignIntent q
    keywords := extract_keywords_simple q
    entities := (extractEntities q).eraseDups
    query_type := "factual"
    complexity_score := complexity
    requires_context := true
    suggested_retrieval_count :=
      if 8 / 10 < complexity then 8
      else if 6 / 10 < complexity then 6
      else if 4 / 10 < complexity then 4
      else 3 }

/-- A parsed LLM enhancement as consumed by `QueryAnalyzer._merge_analysis`:
each optional field is `some` exactly when the corresponding key is present
in the parsed JSON dict. -/
structure LLMData where
  intent : Option String := none
  keywords : Option (List String) := none
  entities : Option (List String) := none
  query_type : Option String := none
  complexity_score : Option ℚ := none
  requires_context : Option Bool := none
  suggested_retrieval_count : Option Int := none
deriving Repr, DecidableEq

/-- `QueryAnalyzer._merge_analysis` (lines 179-214). A missing enhancement
(`none`, the result of a failed or unparseable LLM call) leaves the basic
analysis unchanged. Present fields overwrite intent/query_type/
requires_context; keyword and entity lists are unioned when non-empty
(Python's unordered `list(set(...))` is modelled as first-occurrence dedup),
capped at 10; the complexity score is averaged; the retrieval count becomes
the max. -/
def merge_analysis (basic : QueryAnalysis) (llm : Option LLMData) : QueryAnalysis :=
  match llm with
  | none => basic
  | some d =>
    { basic with
      intent := d.intent.getD basic.intent
      keywords :=
        match d.keywords with
        | some ks => if ks.isEmpty then basic.keywords
                     else ((basic.keywords ++ ks).eraseDups).take 10
        | none => basic.keywords
      entities :=
        match d.entities with
        | some es => if es.isEmpty then basic.entities
                     else ((basic.entities ++ es).eraseDups).take 10
        | none => basic.entities
      query_type := d.query_type.getD basic.query_type
      complexity_score :=
        match d.complexity_score with
        | some c => (basic.complexity_score + c) / 2
        | none => basic.complexity_score
      requires_context := d.requires_context.getD basic.requires_context
      suggested_retrieval_count :=
        match d.suggested_retrieval_count with
        | some k => max basic.suggested_retrieval_count k
        | none => basic.suggested_retrieval_count }

/-- `QueryAnalyzer.analyze_query` (lines 79-98): basic analysis, then the
LLM enhancement (an explicit input here: `none` models a failed LLM call or
an unparseable response, for which `_llm_analysis` returns `None`), merged
by `_merge_analysis`. -/
def analyze_query (extractEntities : String → List String) (q : String)
    (llm : Option LLMData) : QueryAnalysis :=
  merge_analysis (basic_analysis extractEntities q) llm

/-! ## Retrieval service (`app/services/retrieval_service.py`) -/

/-- One search result dict as produced by `_semantic_search` /
`_keyword_search` and transformed by the `hybrid_search` pipeline. Raw pass
results carry `similarity_score` and `search_type`; `final_score`,
`semantic_score` and `keyword_score` are absent (`none`) until
`_merge_search_results` sets them. Metadata, snippet offsets and highlight
fields play no role in the scoring pipeline and are omitted. -/
structure SearchResult where
  text : String
  document_id : String
  similarity_score : ℚ
  search_type : String
  final_score : Option ℚ := none
  semantic_score : Option ℚ := none
  keyword_score : Option ℚ := none
deriving Repr, DecidableEq

/-- Grouping key of `_merge_search_results` (line 353):
`f"{document_id}_{hash(text)}"`. Modelled as the pair, i.e. Python's `hash`
on strings is taken injective. -/
def groupKey (r : SearchResult) : String × String :=
  (r.document_id, r.text)

/-- Group keys in first-occurrence order, as iteration over the
`defaultdict` produces them. -/
def groupKeys (rs : List SearchResult) : List (String × String) :=
  (rs.map groupKey).eraseDups

/-- The groups of `_merge_search_results`, each in original order, groups
ordered by first occurrence of their key. -/
def groupsByKey (rs : List SearchResult) : List (List SearchResult) :=
  (groupKeys rs).map (fun k => rs.filter (fun r => groupKey r == k))

/-- The multi-element branch of `_merge_search_results` (lines 364-382):
first semantic and first keyword member, base result preferring the
semantic one, weighted final score, search type `"hybrid"`. A group with
neither a semantic nor a keyword member would make Python fault on `None`
(caught by `hybrid_search`'s outer `except`); it is mapped to `none`. -/
def mergeMulti (keyword_weight semantic_weight : ℚ) (g : List SearchResult) :
    Option SearchResult :=
  let semantic_result := g.find? (fun r => r.search_type == "semantic")
  let keyword_result := g.find? (fun r => r.search_type == "keyword")
  match semantic_result.orElse (fun _ => keyword_result) with
  | none => none
  | some base =>
    let semantic_score := match semantic_result with
      | some r => r.similarity_score
      | none => 0
    let keyword_score := match keyword_result with
      | some r => r.similarity_score
      | none => 0
    some { base with
      final_score := some (semantic_score * semantic_weight + keyword_score * keyword_weight)
      search_type := "hybrid"
      semantic_score := some semantic_score
      keyword_score := some keyword_score }

/-- Per-group step of `_merge_search_results` (lines 358-382): a singleton
group keeps its own similarity score as the final score (and its search
type); larger groups are fused by `mergeMulti`. -/
def mergeGroup (keyword_weight semantic_weight : ℚ) :
    List SearchResult → Option SearchResult
  | [r] => some { r with final_score := some r.similarity_score }
  | g => mergeMulti keyword_weight semantic_weight g

/-- `RetrievalService._merge_search_results` (lines 342-384). -/
def merge_search_results (rs : List SearchResult)
    (keyword_weight semantic_weight : ℚ) : List SearchResult :=
  (groupsByKey rs).filterMap (mergeGroup keyword_weight semantic_weight)

/-- Dedup key of `_deduplicate_results` (line 394): the stripped first 100
characters of the text. -/
def dedupKey (r : SearchResult) : String :=
  (r.text.take 100).trim

/-- Recursive core of `_deduplicate_results`: keep the first result for each
dedup key, carrying the set of seen keys. -/
def dedupAux (seen : List String) : List SearchResult → List SearchResult
  | [] => []
  | r :: rs =>
    if dedupKey r ∈ seen then dedupAux seen rs
    else r :: dedupAux (dedupKey r :: seen) rs

/-- `RetrievalService._deduplicate_results` (lines 386-400). -/
def deduplicate_results (rs : List SearchResult) : List SearchResult :=
  dedupAux [] rs

/-- Sort key at line 120: `x.get('final_score', x.get('similarity_score', 0))`. -/
def sortScore (r : SearchResult) : ℚ :=
  r.final_score.getD r.similarity_score

/-- Descending order on the sort key, the order of
`sorted(..., reverse=True)` at line 120. -/
def scoreGE (a b : SearchResult) : Prop :=
  sortScore b ≤ sortScore a

instance : DecidableRel scoreGE := fun a b =>
  inferInstanceAs (Decidable (sortScore b ≤ sortScore a))

instance : IsTotal SearchResult scoreGE :=
  ⟨fun a b => le_total (sortScore b) (sortScore a)⟩

instance : IsTrans SearchResult scoreGE :=
  ⟨fun _ _ _ hab hbc => le_trans hbc hab⟩

/-- Python's `sorted(..., key=..., reverse=True)` is a stable sort into
descending key order, modelled by stable insertion sort under `scoreGE`. -/
def sortResults (rs : List SearchResult) : List SearchResult :=
  rs.insertionSort scoreGE

/-- The result pipeline of `RetrievalService.hybrid_search` (lines 92-121)
after the two search passes, whose outputs are explicit inputs here: collect
the enabled passes' results, merge when both passes are enabled, drop
results whose `similarity_score` is below the threshold, optionally
deduplicate, sort descending by final score (similarity score when absent),
and truncate to `n_results`. -/
def hybrid_search_pipeline (semanticResults keywordResults : List SearchResult)
    (enable_semantic enable_keyword : Bool)
    (keyword_weight semantic_weight similarity_threshold : ℚ)
    (n_results : Nat) (deduplicate : Bool) : List SearchResult :=
  let results :=
    (if enable_semantic then semanticResults else []) ++
      (if enable_keyword then keywordResults else [])
  let results :=
    if enable_semantic && enable_keyword then
      merge_search_results results keyword_weight semantic_weight
    else results
  let results := results.filter (fun r => similarity_threshold ≤ r.similarity_score)
  let results := if deduplicate then deduplicate_results results else results
  let results := sortResults results
  results.take n_results

/-! ## Search cache (`RetrievalService.query_cache`) -/

/-- One cached entry: the stored result and its insertion timestamp
(`datetime.now()` modelled as seconds). -/
structure CacheItem (ν : Type) where
  result : ν
  timestamp : Nat
deriving Repr, DecidableEq

/-- The query cache: a Python dict, i.e. an insertion-ordered association
list with unique keys. -/
abbrev QueryCache (κ ν : Type) : Type :=
  List (κ × CacheItem ν)

/-- The cache TTL: `self.cache_ttl = 300` seconds. -/
def cacheTTL : Nat := 300

/-- Python dict assignment `d[k] = v`: replace in place when the key exists,
else append. -/
def dictSet {κ ν : Type} [DecidableEq κ] (c : QueryCache κ ν) (k : κ)
    (item : CacheItem ν) : QueryCache κ ν :=
  if c.any (fun p => decide (p.1 = k)) then
    c.map (fun p => if p.1 = k then (k, item) else p)
  else c ++ [(k, item)]

/-- `RetrievalService._cache_result` (lines 513-528): store the result under
the current time; if the cache then holds more than 100 entries, delete
exactly the entries older than the TTL (`current_time - timestamp > 300s`). -/
def cache_result {κ ν : Type} [DecidableEq κ] (now : Nat) (c : QueryCache κ ν)
    (k : κ) (v : ν) : QueryCache κ ν :=
  let c := dictSet c k ⟨v, now⟩
  if 100 < c.length then
    c.filter (fun p => !(decide (cacheTTL < now - p.2.timestamp)))
  else c

/-- `RetrievalService._get_cached_result` (lines 502-511): a hit iff the key
is present and younger than the TTL (`now - timestamp < 300s`); a present
but expired key is deleted. Returns the lookup result and the cache after
the call. -/
def get_cached_result {κ ν : Type} [DecidableEq κ] (now : Nat)
    (c : QueryCache κ ν) (k : κ) : Option ν × QueryCache κ ν :=
  match c.find? (fun p => decide (p.1 = k)) with
  | some p =>
    if now - p.2.timestamp < cacheTTL then (some p.2.result, c)
    else (none, c.filter (fun q => !(decide (q.1 = k))))
  | none => (none, c)

/-! ## Advanced-search endpoint (`app/api/retrieval.py`) -/

/-- `SearchMode` (`app/models/retrieval.py`). -/
inductive SearchMode where
  | semantic
  | keyword
  | hybrid
deriving Repr, DecidableEq

/-- `AdvancedSearchRequest` (`app/models/retrieval.py`), restricted to the
fields `advanced_search` reads on the path to the weight validation and the
`hybrid_search` call; defaults as in the pydantic model. -/
structure AdvancedSearchRequest where
  query : String
  search_mode : SearchMode := .hybrid
  n_results : Nat := 10
  similarity_threshold : ℚ := 7 / 10
  keyword_weight : ℚ := 3 / 10
  semantic_weight : ℚ := 7 / 10
  deduplicate : Bool := true

/-- The keyword-argument bundle `advanced_search` passes to
`retrieval_service.hybrid_search` (lines 53-67). -/
structure HybridCall where
  query : String
  n_results : Nat
  similarity_threshold : ℚ
  enable_keyword_search : Bool
  enable_semantic_search : Bool
  keyword_weight : ℚ
  semantic_weight : ℚ
  deduplicate : Bool
deriving Repr, DecidableEq

/-- `advanced_search` (`app/api/retrieval.py` lines 26-67) up to the
retrieval call: in hybrid mode a weight pair with
`abs(keyword_weight + semantic_weight - 1.0) > 0.01` raises
`HTTPException(400)` before anything else runs; otherwise the handler
reaches the `hybrid_search` invocation, returned here as the `Except.ok`
payload. An `Except.error` therefore means `hybrid_search` is never
entered: no search-history recording, no cache lookup, no candidate
document fetch, no embedding call. -/
def advanced_search (req : AdvancedSearchRequest) : Except Nat HybridCall :=
  if req.search_mode = .hybrid ∧ 1 / 100 < |req.keyword_weight + req.semantic_weight - 1| then
    .error 400
  else
    .ok { query := req.query
          n_results := req.n_results
          similarity_threshold := req.similarity_threshold
          enable_keyword_search :=
            match req.search_mode with
            | .keyword => true
            | .hybrid => true
            | .semantic => false
          enable_semantic_search :=
            match req.search_mode with
            | .semantic => true
            | .hybrid => true
            | .keyword => false
          keyword_weight := req.keyword_weight
          semantic_weight := req.semantic_weight
          deduplicate := req.deduplicate }

/-! ## Helper lemmas -/

/-- Deduplication under any starting seen set is idempotent. -/
theorem dedupAux_idem (rs : List SearchResult) :
    ∀ seen, dedupAux seen (dedupAux seen rs) = dedupAux seen rs := by
  induction rs with
  | nil => intro seen; rfl
  | cons r rs ih =>
    intro seen
    by_cases h : dedupKey r ∈ seen
    · simp only [dedupAux, if_pos h]
      exact ih seen
    · simp only [dedupAux, if_neg h]
      exact congrArg (r :: ·) (ih (dedupKey r :: seen))

/-! ## Claim theorems -/

/-- C9: deduplication of search results is idempotent: collapsing entries
that share the same stripped first-100-character text prefix, keeping the
first in current order, is unchanged by a second application. -/
theorem deduplicate_results_idempotent (rs : List SearchResult) :
    deduplicate_results (deduplicate_results rs) = deduplicate_results rs :=
  dedupAux_idem rs []

/-- C5: the deterministic intent assignment of `_basic_analysis` is stuck at
the default: because the default intent `"question"` equals the first
category of the priority list, the outer loop's `analysis.intent == intent`
check breaks after the first category whether or not anything matched, so
every query — including `"总结"`, which matches a pattern of the later
`summary` category and no earlier one — is assigned intent `"question"`. -/
theorem assignIntent_always_question :
    (∀ q : String, assignIntent q = "question")
    ∧ intent_patterns.any
        (fun p => p.1 == "summary" && p.2.any (fun pat => strContains "总结" pat)) = true
    ∧ assignIntent "总结" = "question" := by
  refine ⟨?_, by decide, ?_⟩
  · intro q
    simp [assignIntent, findIntent, intent_patterns]
  · simp [assignIntent, findIntent, intent_patterns]

/-- C2: a hybrid-mode request whose weights violate
`|keyword_weight + semantic_weight - 1| ≤ 0.01` is rejected with HTTP 400
before the `hybrid_search` invocation, so no retrieval work (history
recording, cache lookup, candidate fetch, embedding call) runs. -/
theorem hybrid_weight_validation_rejects (req : AdvancedSearchRequest)
    (hmode : req.search_mode = .hybrid)
    (hw : 1 / 100 < |req.keyword_weight + req.semantic_weight - 1|) :
    advanced_search req = .error 400 := by
  unfold advanced_search
  rw [if_pos ⟨hmode, hw⟩]

/-- Witness for C2 at the concrete weight pair (0.5, 0.6), whose sum misses
1 by 0.1 > 0.01. -/
theorem hybrid_weight_validation_rejects_witness :
    advanced_search { query := "q", keyword_weight := 1 / 2, semantic_weight := 3 / 5 }
      = .error 400 := by
  refine hybrid_weight_validation_rejects _ rfl ?_
  show (1 : ℚ) / 100 < |1 / 2 + 3 / 5 - 1|
  rw [show (1 : ℚ) / 2 + 3 / 5 - 1 = 1 / 10 by norm_num, abs_of_pos (by norm_num)]
  norm_num

/-- One `update_metrics` step keeps the counter identity, recomputes the
average as total time over total requests, and bumps the total by one. -/
theorem update_metrics_step (m : RAGMetrics) (rt : ℚ) (s : Bool)
    (h : m.total_requests = m.successful_requests + m.failed_requests) :
    (update_metrics m rt s).total_requests
        = (update_metrics m rt s).successful_requests + (update_metrics m rt s).failed_requests
    ∧ (update_metrics m rt s).average_response_time
        = (update_metrics m rt s).total_response_time
            / ((update_metrics m rt s).total_requests : ℚ)
    ∧ (update_metrics m rt s).total_requests = m.total_requests + 1 := by
  cases s <;> simp [update_metrics] <;> omega

/-- The metrics invariant survives any tail of further calls. -/
theorem runMetrics_aux (calls : List (ℚ × Bool)) :
    ∀ m : RAGMetrics,
      m.total_requests = m.successful_requests + m.failed_requests →
      (0 < m.total_requests →
        m.average_response_time = m.total_response_time / (m.total_requests : ℚ)) →
      (calls.foldl (fun m c => update_metrics m c.1 c.2) m).total_requests
          = (calls.foldl (fun m c => update_metrics m c.1 c.2) m).successful_requests
              + (calls.foldl (fun m c => update_metrics m c.1 c.2) m).failed_requests
        ∧ (0 < (calls.foldl (fun m c => update_metrics m c.1 c.2) m).total_requests →
            (calls.foldl (fun m c => update_metrics m c.1 c.2) m).average_response_time
              = (calls.foldl (fun m c => update_metrics m c.1 c.2) m).total_response_time
                  / ((calls.foldl (fun m c => update_metrics m c.1 c.2) m).total_requests : ℚ))
        ∧ m.total_requests
            ≤ (calls.foldl (fun m c => update_metrics m c.1 c.2) m).total_requests := by
  induction calls with
  | nil => intro m h1 h2; exact ⟨h1, h2, le_refl _⟩
  | cons c cs ih =>
    intro m h1 h2
    rw [List.foldl_cons]
    obtain ⟨s1, s2, s3⟩ := update_metrics_step m c.1 c.2 h1
    obtain ⟨t1, t2, t3⟩ := ih (update_metrics m c.1 c.2) s1 (fun _ => s2)
    exact ⟨t1, t2, by omega⟩

/-- C10: after any non-empty sequence of `update_metrics` calls starting
from fresh metrics, `total_requests = successful_requests + failed_requests`
and `average_response_time = total_response_time / total_requests`. -/
theorem metrics_invariant (calls : List (ℚ × Bool)) (h : calls ≠ []) :
    (runMetrics calls).total_requests
        = (runMetrics calls).successful_requests + (runMetrics calls).failed_requests
    ∧ (runMetrics calls).average_response_time
        = (runMetrics calls).total_response_time / ((runMetrics calls).total_requests : ℚ) := by
  obtain ⟨c, cs, rfl⟩ := List.exists_cons_of_ne_nil h
  unfold runMetrics
  rw [List.foldl_cons]
  obtain ⟨s1, s2, s3⟩ := update_metrics_step {} c.1 c.2 rfl
  obtain ⟨t1, t2, t3⟩ := runMetrics_aux cs (update_metrics {} c.1 c.2) s1 (fun _ => s2)
  exact ⟨t1, t2 (by simp [RAGMetrics] at s3 ⊢; omega)⟩

/-- Witness for C10 at the single call `update_metrics(2, success = true)`. -/
theorem metrics_invariant_witness :
    (runMetrics [(2, true)]).total_requests
        = (runMetrics [(2, true)]).successful_requests + (runMetrics [(2, true)]).failed_requests
    ∧ (runMetrics [(2, true)]).average_response_time
        = (runMetrics [(2, true)]).total_response_time
            / ((runMetrics [(2, true)]).total_requests : ℚ) :=
  metrics_invariant [(2, true)] (by simp)

/-- `add_message` always equals keeping the last `maxMessages` entries of
the appended list. -/
theorem add_message_eq_drop (msgs : List ChatMessage) (m : ChatMessage) :
    add_message msgs m = (msgs ++ [m]).drop ((msgs ++ [m]).length - maxMessages) := by
  have h : add_message msgs m =
      if maxMessages < (msgs ++ [m]).length then
        (msgs ++ [m]).drop ((msgs ++ [m]).length - maxMessages)
      else (msgs ++ [m]) := rfl
  rw [h]
  by_cases hc : maxMessages < (msgs ++ [m]).length
  · rw [if_pos hc]
  · rw [if_neg hc, Nat.sub_eq_zero_of_le (Nat.le_of_not_lt hc), List.drop_zero]

set_option maxRecDepth 2000 in
/-- Trimming to the last `maxMessages` entries commutes with appending more
messages afterwards. -/
theorem drop_cap_append (a b : List ChatMessage) :
    (a.drop (a.length - maxMessages) ++ b).drop
        ((a.drop (a.length - maxMessages) ++ b).length - maxMessages)
      = (a ++ b).drop ((a ++ b).length - maxMessages) := by
  have hd : a.length - maxMessages ≤ a.length := Nat.sub_le _ _
  have h1 : (a ++ b).drop (a.length - maxMessages) = a.drop (a.length - maxMessages) ++ b :=
    List.drop_append_of_le_length hd
  rw [← h1]
  rw [List.drop_drop]
  congr 1
  have h2 : ((a ++ b).drop (a.length - maxMessages)).length
      = a.length + b.length - (a.length - maxMessages) := by
    simp [List.length_drop]
  rw [h2]
  simp only [List.length_append]
  omega

/-- Folding `add_message` over a message list from a short-enough start state
keeps exactly the last `maxMessages` entries of everything appended. -/
theorem foldl_add_message (ms : List ChatMessage) :
    ∀ acc : List ChatMessage, acc.length ≤ maxMessages →
      ms.foldl add_message acc = (acc ++ ms).drop ((acc ++ ms).length - maxMessages) := by
  induction ms with
  | nil => intro acc h; simp [Nat.sub_eq_zero_of_le h]
  | cons m ms ih =>
    intro acc h
    rw [List.foldl_cons]
    have hlen : (add_message acc m).length ≤ maxMessages := by
      rw [add_message_eq_drop]
      simp only [List.length_drop, List.length_append, List.length_cons]
      omega
    rw [ih (add_message acc m) hlen, add_message_eq_drop, drop_cap_append (acc ++ [m]) ms]
    simp

/-- C6: sequentially adding messages to a fresh conversation keeps exactly
the last 100 of them (oldest dropped first); in particular after 105 adds the
conversation holds exactly 100 messages, the first 5 added are gone, and the
105th message is the last element. -/
theorem conversation_message_cap (ms : List ChatMessage) :
    addAllMessages ms = ms.drop (ms.length - 100)
    ∧ (100 ≤ ms.length → (addAllMessages ms).length = 100)
    ∧ (ms.length = 105 →
        addAllMessages ms = ms.drop 5
        ∧ (addAllMessages ms).length = 100
        ∧ (addAllMessages ms).getLast? = ms.getLast?) := by
  have hbase : addAllMessages ms = ms.drop (ms.length - 100) := by
    have h := foldl_add_message ms [] (by simp)
    simpa [addAllMessages, maxMessages] using h
  refine ⟨hbase, ?_, ?_⟩
  · intro h
    rw [hbase]
    simp only [List.length_drop]
    omega
  · intro h105
    refine ⟨by rw [hbase, h105], ?_, ?_⟩
    · rw [hbase]
      simp [List.length_drop, h105]
    · rw [hbase, h105]
      rw [List.getLast?_eq_getElem?, List.getLast?_eq_getElem?, List.getElem?_drop]
      congr 1
      simp only [List.length_drop, h105]

/-- The 105 distinct messages of the C6 scenario. -/
def msgs105 : List ChatMessage :=
  (List.range 105).map (fun i => ⟨.user, toString i⟩)

/-- Witness for C6 at the concrete 105-message scenario. -/
theorem conversation_message_cap_witness :
    addAllMessages msgs105 = msgs105.drop 5
    ∧ (addAllMessages msgs105).length = 100
    ∧ (addAllMessages msgs105).getLast? = msgs105.getLast? :=
  (conversation_message_cap msgs105).2.2 (by simp [msgs105])

/-- The message just appended by `add_message` is always the last element of
the stored history. -/
theorem add_message_getLast (msgs : List ChatMessage) (m : ChatMessage) :
    (add_message msgs m).getLast? = some m := by
  have hM : 0 < maxMessages := by decide
  rw [add_message_eq_drop, List.getLast?_eq_getElem?, List.getElem?_drop]
  have hidx : ((msgs ++ [m]).length - maxMessages)
      + (((msgs ++ [m]).drop ((msgs ++ [m]).length - maxMessages)).length - 1)
      = (msgs ++ [m]).length - 1 := by
    simp only [List.length_drop, List.length_append, List.length_cons]
    omega
  rw [hidx, ← List.getLast?_eq_getElem?]
  exact List.getLast?_concat _

/-- C3 (amended): when the generation provider fails mid-stream, the failure
is swallowed inside `_stream_generate_response`: the caller receives the
provider's chunks and then the error text as one ordinary non-terminal
increment, followed by a single normal completion increment carrying no
error; and the user message plus the full accumulated text — the partial
response with the error text appended — are persisted to the conversation
history. -/
theorem stream_error_swallowed (userMessage : String) (history : List ChatMessage)
    (chunks : List String) (e : String) :
    (∀ i ∈ (stream_chat userMessage history chunks (some e)).1, i.error_message = none)
    ∧ (stream_chat userMessage history chunks (some e)).1.length = chunks.length + 2
    ∧ ((stream_chat userMessage history chunks (some e)).1.filter
        (fun i => i.is_complete)).length = 1
    ∧ (stream_chat userMessage history chunks (some e)).1.getLast?
        = some { chunk := "", is_complete := true, error_message := none }
    ∧ (stream_chat userMessage history chunks (some e)).2.getLast?
        = some ⟨.assistant, (chunks.foldl (· ++ ·) "") ++ ("生成回答时出现错误: " ++ e)⟩ := by
  refine ⟨?_, ?_, ?_, ?_, ?_⟩
  · intro i hi
    simp only [stream_chat, stream_generate_response, List.mem_append, List.mem_map,
      List.mem_singleton] at hi
    rcases hi with ⟨c, _, rfl⟩ | rfl <;> rfl
  · simp [stream_chat, stream_generate_response]
  · simp [stream_chat, stream_generate_response, List.filter_append, List.filter_map,
      Function.comp]
  · simp only [stream_chat, stream_generate_response]
    exact List.getLast?_concat _
  · simp only [stream_chat, stream_generate_response]
    rw [add_message_getLast]
    simp [List.foldl_append]

/-- Witness for C3 (amended) at one provider chunk `"a"` and provider error
`"x"`: the swallowed-error increment reaches the caller with no error field. -/
theorem stream_error_swallowed_witness :
    ({ chunk := "生成回答时出现错误: x", is_complete := false,
       error_message := none } : StreamIncrement).error_message = none :=
  (stream_error_swallowed "q" [] ["a"] "x").1 _ (by decide)

/-- C3 (counterexample to the claim as stated): for the call with one
already-produced chunk `"部分"` and a mid-stream provider error `"boom"`,
the caller receives zero increments carrying an error message (so not
exactly one terminal error increment), and an assistant message extending
the partial text `"部分"` is persisted to the conversation history. -/
theorem stream_error_counterexample :
    ((stream_chat "q" [] ["部分"] (some "boom")).1.filter
        (fun i => i.error_message.isSome)).length = 0
    ∧ (stream_chat "q" [] ["部分"] (some "boom")).2
        = [⟨.user, "q"⟩, ⟨.assistant, "部分生成回答时出现错误: boom"⟩] := by
  constructor
  · decide
  · decide

/-- C4: in `_merge_search_results`, a singleton group keeps its own
similarity score as `final_score` and keeps its original `search_type`,
while a group containing a semantic and a keyword member is fused into its
first semantic member with
`final_score = semantic_score * semantic_weight + keyword_score * keyword_weight`
and `search_type = "hybrid"`, the pass scores being those of the group's
first semantic and first keyword members. -/
theorem merge_group_scores (keyword_weight semantic_weight : ℚ) (r : SearchResult)
    (g : List SearchResult) (rs rk : SearchResult) :
    mergeGroup keyword_weight semantic_weight [r]
        = some { r with final_score := some r.similarity_score }
    ∧ (g.find? (fun x => x.search_type == "semantic") = some rs →
        g.find? (fun x => x.search_type == "keyword") = some rk →
        mergeGroup keyword_weight semantic_weight g
          = some { rs with
              final_score := some (rs.similarity_score * semantic_weight
                + rk.similarity_score * keyword_weight)
              search_type := "hybrid"
              semantic_score := some rs.similarity_score
              keyword_score := some rk.similarity_score }) := by
  refine ⟨rfl, ?_⟩
  intro hs hk
  match g with
  | [] => simp at hs
  | [x] =>
    have h1 := List.find?_some hs
    have h2 := List.find?_some hk
    have m1 : rs ∈ [x] := List.mem_of_find?_eq_some hs
    have m2 : rk ∈ [x] := List.mem_of_find?_eq_some hk
    simp only [List.mem_singleton] at m1 m2
    rw [m1] at h1
    rw [m2] at h2
    rw [eq_of_beq h1] at h2
    exact absurd (eq_of_beq h2) (by decide)
  | a :: b :: t =>
    show mergeMulti keyword_weight semantic_weight (a :: b :: t) = _
    unfold mergeMulti
    rw [hs, hk]
    rfl

/-- A semantic-pass result used in concrete instances. -/
def semResultEx : SearchResult :=
  { text := "t", document_id := "d", similarity_score := 1, search_type := "semantic" }

/-- A keyword-pass result for the same chunk used in concrete instances. -/
def kwResultEx : SearchResult :=
  { text := "t", document_id := "d", similarity_score := 0, search_type := "keyword" }

/-- Witness for C4 at concrete weights (keyword 1, semantic 0) and the
concrete two-pass group `[semResultEx, kwResultEx]`. -/
theorem merge_group_scores_witness :
    mergeGroup 1 0 [semResultEx]
        = some { semResultEx with final_score := some semResultEx.similarity_score }
    ∧ mergeGroup 1 0 [semResultEx, kwResultEx]
        = some { semResultEx with
            final_score := some (semResultEx.similarity_score * 0
              + kwResultEx.similarity_score * 1)
            search_type := "hybrid"
            semantic_score := some semResultEx.similarity_score
            keyword_score := some kwResultEx.similarity_score } :=
  ⟨(merge_group_scores 1 0 semResultEx [semResultEx, kwResultEx] semResultEx kwResultEx).1,
   (merge_group_scores 1 0 semResultEx [semResultEx, kwResultEx] semResultEx kwResultEx).2
     rfl rfl⟩

/-- C8 (amended): the cache treats an entry as expired 300 seconds after
insertion — a lookup at age ≥ TTL misses (and a lookup strictly younger than
the TTL hits) — and when an insertion leaves more than 100 entries only
entries strictly older than the TTL are purged: an entry under a different
key that is still within the TTL always survives `_cache_result`, whatever
the cache size, so the capacity bound is not enforced. -/
theorem cache_ttl_and_no_fresh_eviction (c : QueryCache Nat Nat) (k : Nat) (now : Nat)
    (v : Nat) (p : Nat × CacheItem Nat) :
    (p ∈ c → p.1 ≠ k → now - p.2.timestamp ≤ cacheTTL → p ∈ cache_result now c k v)
    ∧ (c.find? (fun q => decide (q.1 = k)) = some p → cacheTTL ≤ now - p.2.timestamp →
        (get_cached_result now c k).1 = none)
    ∧ (c.find? (fun q => decide (q.1 = k)) = some p → now - p.2.timestamp < cacheTTL →
        (get_cached_result now c k).1 = some p.2.result) := by
  refine ⟨?_, ?_, ?_⟩
  · intro hp hne hfresh
    have hmem : p ∈ dictSet c k ⟨v, now⟩ := by
      unfold dictSet
      by_cases hex : c.any (fun q => decide (q.1 = k)) = true
      · rw [if_pos hex]
        exact List.mem_map.mpr ⟨p, hp, by rw [if_neg hne]⟩
      · rw [if_neg hex]
        exact List.mem_append_left _ hp
    show p ∈ (if 100 < (dictSet c k ⟨v, now⟩).length then
        (dictSet c k ⟨v, now⟩).filter
          (fun q => !(decide (cacheTTL < now - q.2.timestamp)))
      else dictSet c k ⟨v, now⟩)
    by_cases hlen : 100 < (dictSet c k ⟨v, now⟩).length
    · rw [if_pos hlen]
      refine List.mem_filter.mpr ⟨hmem, ?_⟩
      simp [Nat.not_lt.mpr hfresh]
    · rw [if_neg hlen]
      exact hmem
  · intro hf hold
    unfold get_cached_result
    rw [hf]
    simp only []
    rw [if_neg (Nat.not_lt.mpr hold)]
  · intro hf hfresh
    unfold get_cached_result
    rw [hf]
    simp only []
    rw [if_pos hfresh]

/-- Witness for C8 (amended) at concrete caches: a fresh foreign entry
survives an insertion; an entry of age 301 misses; an entry of age 10 hits. -/
theorem cache_ttl_and_no_fresh_eviction_witness :
    (((1 : Nat), (⟨5, 0⟩ : CacheItem Nat)) ∈ cache_result 10 [(1, ⟨5, 0⟩)] 2 7)
    ∧ (get_cached_result 301 [((1 : Nat), (⟨9, 0⟩ : CacheItem Nat))] 1).1 = none
    ∧ (get_cached_result 10 [((1 : Nat), (⟨5, 0⟩ : CacheItem Nat))] 1).1 = some 5 :=
  ⟨(cache_ttl_and_no_fresh_eviction [(1, ⟨5, 0⟩)] 2 10 7 (1, ⟨5, 0⟩)).1
      (by decide) (by decide) (by decide),
   (cache_ttl_and_no_fresh_eviction [(1, ⟨9, 0⟩)] 1 301 0 (1, ⟨9, 0⟩)).2.1
      (by decide) (by decide),
   (cache_ttl_and_no_fresh_eviction [(1, ⟨5, 0⟩)] 1 10 0 (1, ⟨5, 0⟩)).2.2
      (by decide) (by decide)⟩

set_option maxRecDepth 100000 in
/-- C8 (counterexample to the claim as stated): inserting 120 distinct keys
at the same instant leaves 120 entries in the cache — the over-capacity
sweep evicts nothing because no entry is older than the TTL, so the cache is
not brought back within the 100-entry capacity and oldest-first eviction
does not happen. -/
theorem cache_capacity_counterexample :
    ((List.range 120).foldl (fun c i => cache_result 0 c i 0)
        ([] : QueryCache Nat Nat)).length = 120 := by
  decide

/-- Deduplication only keeps elements of its input. -/
theorem mem_of_mem_dedupAux (rs : List SearchResult) :
    ∀ seen r, r ∈ dedupAux seen rs → r ∈ rs := by
  induction rs with
  | nil => intro _ _ h; simp [dedupAux] at h
  | cons x rs ih =>
    intro seen r h
    simp only [dedupAux] at h
    by_cases hk : dedupKey x ∈ seen
    · rw [if_pos hk] at h
      exact List.mem_cons_of_mem x (ih seen r h)
    · rw [if_neg hk] at h
      rcases List.mem_cons.mp h with rfl | h2
      · exact List.mem_cons_self _ _
      · exact List.mem_cons_of_mem x (ih _ r h2)

/-- The tail of the `hybrid_search` pipeline — threshold filter, optional
dedup, descending sort, truncation — always yields a list of results at or
above the similarity threshold, sorted descending by sort score, of length
at most `n_results`, whatever list the search-and-merge stages produced. -/
theorem pipeline_post (pre : List SearchResult) (th : ℚ) (n : Nat) (dd : Bool) :
    (∀ r ∈ (sortResults (if dd then
          deduplicate_results (pre.filter (fun r => th ≤ r.similarity_score))
        else pre.filter (fun r => th ≤ r.similarity_score))).take n,
        th ≤ r.similarity_score)
    ∧ List.Sorted scoreGE ((sortResults (if dd then
          deduplicate_results (pre.filter (fun r => th ≤ r.similarity_score))
        else pre.filter (fun r => th ≤ r.similarity_score))).take n)
    ∧ ((sortResults (if dd then
          deduplicate_results (pre.filter (fun r => th ≤ r.similarity_score))
        else pre.filter (fun r => th ≤ r.similarity_score))).take n).length ≤ n := by
  set mid := (if dd then
      deduplicate_results (pre.filter (fun r => th ≤ r.similarity_score))
    else pre.filter (fun r => th ≤ r.similarity_score)) with hmid
  have hsub : ∀ r ∈ (sortResults mid).take n,
      r ∈ pre.filter (fun r => th ≤ r.similarity_score) := by
    intro r h
    have h1 : r ∈ sortResults mid := List.take_subset n _ h
    have h2 : r ∈ mid := (List.perm_insertionSort scoreGE mid).mem_iff.mp h1
    rw [hmid] at h2
    by_cases hdd : dd = true
    · rw [if_pos hdd] at h2
      exact mem_of_mem_dedupAux _ _ _ h2
    · rw [if_neg hdd] at h2
      exact h2
  refine ⟨?_, ?_, ?_⟩
  · intro r h
    have := List.of_mem_filter (hsub r h)
    exact of_decide_eq_true this
  · exact List.Pairwise.sublist (List.take_sublist n _) (List.sorted_insertionSort scoreGE mid)
  · exact List.length_take_le n _

/-- C1 (amended): every result returned by the `hybrid_search` pipeline has
`similarity_score ≥ similarity_threshold` (the threshold filter reads the
similarity score — line 113 — so a fused result's `final_score` may be
below the threshold), and the returned list is sorted in descending order
of `final_score` (similarity score for entries without one) and truncated
to `n_results`. -/
theorem hybrid_search_threshold_and_order
    (semanticResults keywordResults : List SearchResult) (es ek : Bool)
    (kw sw th : ℚ) (n : Nat) (dd : Bool) :
    (∀ r ∈ hybrid_search_pipeline semanticResults keywordResults es ek kw sw th n dd,
        th ≤ r.similarity_score)
    ∧ List.Sorted scoreGE
        (hybrid_search_pipeline semanticResults keywordResults es ek kw sw th n dd)
    ∧ (hybrid_search_pipeline semanticResults keywordResults es ek kw sw th n dd).length ≤ n :=
  pipeline_post _ th n dd

/-- A semantic result with score at the threshold, for concrete instances. -/
def semOnlyResult : SearchResult :=
  { text := "s", document_id := "d", similarity_score := 0, search_type := "semantic" }

/-- Witness for C1 (amended) on a semantic-only call returning one result. -/
theorem hybrid_search_threshold_and_order_witness :
    (0 : ℚ) ≤ semOnlyResult.similarity_score :=
  (hybrid_search_threshold_and_order [semOnlyResult] [] true false 0 0 0 1 false).1
    semOnlyResult (by simp [hybrid_search_pipeline, sortResults, semOnlyResult])

/-- C1 (counterexample to the claim as stated): with both passes enabled,
keyword weight 1, semantic weight 0, threshold 1, a chunk found by the
semantic pass at similarity 1 and by the keyword pass at score 0 is fused to
`final_score = 0`, passes the threshold filter (which reads the similarity
score 1), and is returned — a returned chunk with `final_score < threshold`. -/
theorem hybrid_threshold_counterexample :
    (hybrid_search_pipeline [semResultEx] [kwResultEx] true true 1 0 1 3 true).map
        (fun r => (r.final_score, r.similarity_score)) = [(some 0, 1)]
    ∧ (0 : ℚ) < 1 := by
  have hkeys : ([(("d" : String), ("t" : String)), ("d", "t")]).eraseDups = [("d", "t")] := by
    decide
  constructor
  · simp [hybrid_search_pipeline, merge_search_results, groupsByKey, groupKeys, groupKey,
      mergeGroup, mergeMulti, semResultEx, kwResultEx, deduplicate_results, dedupAux,
      sortResults, dedupKey, hkeys]
  · exact zero_lt_one

/-- C7: when the LLM enhancement call fails or its response is unparseable
(`none`), `analyze_query` returns exactly the deterministic analysis
unchanged (and, being a total function, cannot raise); when a parseable
enhancement carrying the corresponding keys is present, the final
`complexity_score` is the arithmetic mean of the deterministic and enhanced
scores, and `suggested_retrieval_count` is the maximum of the two. -/
theorem analyze_query_merge (ee : String → List String) (q : String) (d : LLMData)
    (c : ℚ) (k : Int) :
    analyze_query ee q none = basic_analysis ee q
    ∧ (d.complexity_score = some c →
        (analyze_query ee q (some d)).complexity_score
          = ((basic_analysis ee q).complexity_score + c) / 2)
    ∧ (d.suggested_retrieval_count = some k →
        (analyze_query ee q (some d)).suggested_retrieval_count
          = max (basic_analysis ee q).suggested_retrieval_count k) := by
  refine ⟨rfl, ?_, ?_⟩
  · intro h
    simp [analyze_query, merge_analysis, h]
  · intro h
    simp [analyze_query, merge_analysis, h]

/-- Witness for C7 at a concrete query and a concrete parsed enhancement
carrying `complexity_score = 1` and `suggested_retrieval_count = 7`. -/
theorem analyze_query_merge_witness :
    analyze_query (fun _ => []) "查询" none = basic_analysis (fun _ => []) "查询"
    ∧ (analyze_query (fun _ => []) "查询"
        (some { complexity_score := some 1,
                suggested_retrieval_count := some 7 })).complexity_score
      = ((basic_analysis (fun _ => []) "查询").complexity_score + 1) / 2
    ∧ (analyze_query (fun _ => []) "查询"
        (some { complexity_score := some 1,
                suggested_retrieval_count := some 7 })).suggested_retrieval_count
      = max (basic_analysis (fun _ => []) "查询").suggested_retrieval_count 7 :=
  ⟨(analyze_query_merge (fun _ => []) "查询"
      { complexity_score := some 1, suggested_retrieval_count := some 7 } 1 7).1,
   (analyze_query_merge (fun _ => []) "查询"
      { complexity_score := some 1, suggested_retrieval_count := some 7 } 1 7).2.1 rfl,
   (analyze_query_merge (fun _ => []) "查询"
      { complexity_score := some 1, suggested_retrieval_count := some 7 } 1 7).2.2 rfl⟩

end DocAssistant
